import Mathlib

/-!
Verification development for the `deinterf` repository: a shallow embedding
of the identity-aware typed data container (`deinterf/utils/data_ioc/_data.py`),
the term-composition algebra (`deinterf/foundation/_term.py`,
`deinterf/foundation/_data.py`), the directional-cosine transforms
(`deinterf/utils/transform.py`) and the Tolles-Lawson compensator pipeline
(`deinterf/compensator.py`), together with theorems settling the frozen
claims about the natural-language specification.

Numeric arrays are modelled as `List ℝ`; per-sample maps and zips mirror the
elementwise numpy operations.  Python `None` sentinels are modelled
explicitly where the source branches on them.  External numeric primitives
(Butterworth filtering, ridge fitting) that the spec declares out of scope
are abstracted as function parameters.
-/

namespace Deinterf

/-! ## Descriptor model (`deinterf/utils/data_ioc/_data.py`, `DataDescriptor`)

A descriptor instance is modelled by its concrete Python class (`tag`), its
stored signed id (`_id`), the wrapped bare type for
`IndexedDataTypeDescriptor` (`dtype`, `none` for other subclasses) and the
extra identity-relevant constructor parameters (`extra`). -/

structure Desc where
  tag : Nat
  signedId : Int
  dtype : Option Nat
  extra : List Int
  deriving DecidableEq, Repr

/-- `DataDescriptor.id`: decode the signed code to the public id
(`-signed_id - 1` when negative). -/
def publicId (s : Int) : Int :=
  if s < 0 then -s - 1 else s

/-- `DataDescriptor.is_weak_id`: the signed code is negative. -/
def isWeakId (d : Desc) : Bool :=
  d.signedId < 0

/-- `DataDescriptor.index(new_index, weak, check_overriding)`.
Mirrors the source: a negative `new_index` forces `weak`; a requested weak
rebind to a non-negative index re-encodes it as `-new_index - 1`; the copy
plus `ret.id = new_index` assignment nets to replacing the stored signed id.
The `RuntimeError` branch is translated as `Except.error`. -/
def index (d : Desc) (newIndex : Int) (weak : Bool) (checkOverriding : Bool) :
    Except String Desc :=
  let wk := if newIndex < 0 then true else weak
  let ni := if newIndex < 0 then newIndex
            else if weak then -newIndex - 1
            else newIndex
  if !wk || isWeakId d then
    Except.ok { d with signedId := ni }
  else if checkOverriding && !wk && !(isWeakId d) then
    Except.error "Trying to rebind strong id to weak id."
  else
    Except.ok d

/-- `DataDescriptor.index_weak(new_index, check_overriding)`. -/
def indexWeak (d : Desc) (newIndex : Int) (checkOverriding : Bool) :
    Except String Desc :=
  index d newIndex true checkOverriding

/-- `DataDescriptor.__getitem__(index)`: forced rebinding with
`check_overriding=False`. -/
def getitemIndex (d : Desc) (i : Int) : Except String Desc :=
  index d i false false

/-- The tuple of attribute values collected by `DataDescriptor.keys`
(all identity-relevant fields, with `_id` replaced by the decoded public
`id`); `__hash__` is `hash` of exactly this tuple. -/
def keysTuple (d : Desc) : Int × Option Nat × List Int :=
  (publicId d.signedId, d.dtype, d.extra)

/-- `DataDescriptor.__eq__`: same concrete type and equal attribute values
for every key in `keys` (public id, wrapped dtype, extra parameters). -/
def descEq (d1 d2 : Desc) : Bool :=
  d1.tag == d2.tag && decide (keysTuple d1 = keysTuple d2)

/-- A stand-in for Python `hash(tuple(getattr(self, k) for k in self.keys))`:
any fixed function of `keysTuple` represents it; we use a concrete pairing. -/
def descHash (d : Desc) : Int :=
  let t := keysTuple d
  t.1 * 2097169 + (match t.2.1 with | Option.none => -1 | Option.some n => (n : Int)) * 31
    + (t.2.2.foldl (fun a x => a * 131 + x) 7)

/-! ## Container model (`DataIOC`, `IndexedDataIOC`)

Dictionary keys may be bare Python types, descriptor instances, or other
objects.  Values are Python objects: either `None` or actual data (tagged by
a numeral).  Builders are opaque callables referenced by id and interpreted
by an environment function, since in the source they are arbitrary closures
over the container. -/

/-- A key of `DataIOC._collection` / `_lazy_collection`. -/
inductive DKey where
  | typ (t : Nat)
  | dsc (d : Desc)
  | othr (o : Nat)
  deriving DecidableEq, Repr

/-- The concrete-class tag reserved for `IndexedDataTypeDescriptor`
instances (those with `dtype.isSome`). -/
def idtdTag : Nat := 0

/-- `IndexedDataTypeDescriptor(dtype=t, id=s)`. -/
def mkIdxDesc (t : Nat) (s : Int) : Desc :=
  ⟨idtdTag, s, some t, []⟩

/-- Dictionary key equality: types compare by identity, descriptors by
`DataDescriptor.__eq__` (same concrete class plus equal `keys` attributes),
and a descriptor never equals a bare type or an unrelated object. -/
def keyEq (k1 k2 : DKey) : Bool :=
  match k1, k2 with
  | DKey.typ t1, DKey.typ t2 => t1 == t2
  | DKey.dsc d1, DKey.dsc d2 => descEq d1 d2
  | DKey.othr o1, DKey.othr o2 => o1 == o2
  | _, _ => false

/-- A stored Python value: `None` or actual data. -/
inductive PyVal where
  | pynone
  | pyval (v : Nat)
  deriving DecidableEq, Repr

/-- Association-list lookup under `keyEq` (dict `get`). -/
def lookupK (l : List (DKey × α)) (k : DKey) : Option α :=
  match l with
  | [] => none
  | (k1, v) :: rest => if keyEq k1 k then some v else lookupK rest k

/-- Association-list store under `keyEq` (dict `__setitem__`). -/
def insertK (l : List (DKey × α)) (k : DKey) (v : α) : List (DKey × α) :=
  match l with
  | [] => [(k, v)]
  | (k1, v1) :: rest =>
    if keyEq k1 k then (k1, v) :: rest else (k1, v1) :: insertK rest k v

/-- `DataIOC`: the memoized value map, the lazy-builder map (registered
builders are opaque ids; a registered Python `None` is `Option.none`), and
the implicit-registration flag. -/
structure Container where
  collection : List (DKey × PyVal)
  lazyCollection : List (DKey × Option Nat)
  allowImplicitRegister : Bool

/-- `DataIOC.__setitem__`: store under the exact key; an
`IndexedDataTypeDescriptor` with public id 0 mirrors the value under the
bare type, and a bare type mirrors it under the type's default
(weak-id-0) `IndexedDataTypeDescriptor`. -/
def setItem (c : Container) (k : DKey) (v : PyVal) : Container :=
  let col := insertK c.collection k v
  let col := match k with
    | DKey.dsc d =>
      match d.dtype with
      | some dt => if publicId d.signedId = 0 then insertK col (DKey.typ dt) v else col
      | none => col
    | _ => col
  let col := match k with
    | DKey.typ t => insertK col (DKey.dsc (mkIdxDesc t (-1))) v
    | _ => col
  { c with collection := col }

/-- Effective lazy lookup: a stored Python `None` builder is
indistinguishable from a missing entry in `find_builder`. -/
def lookupLazy (c : Container) (k : DKey) : Option Nat :=
  match lookupK c.lazyCollection k with
  | some (some b) => some b
  | _ => none

/-- `DataIOC.find_builder`: exact match first; for an
`IndexedDataTypeDescriptor` key, fall back to a builder registered for the
bare type, wrapped with `_bind_builder_context(dtype.id, builder)` (the
second component records the bound public id of that wrap; `none` means the
builder is used unwrapped). -/
def findBuilder (c : Container) (k : DKey) : Option (Nat × Option Int) :=
  match lookupLazy c k with
  | some b => some (b, none)
  | none =>
    match k with
    | DKey.dsc d =>
      match d.dtype with
      | some dt =>
        match lookupLazy c (DKey.typ dt) with
        | some b => some (b, some (publicId d.signedId))
        | none => none
      | none => none
    | _ => none

/-- Interpretation of builder invocations: a builder id, the optional
indexed-view context id it was wrapped with, and the container it receives;
it returns the produced value and the (possibly mutated) container. -/
abbrev BuilderEnv := Nat → Option Int → Container → PyVal × Container

/-- `DataIOC.__getitem__`.  Returns the value, the container state after
the call and the number of builder invocations performed directly by this
call for the requested key.  `ownB` models `_extract_builder(key)` for the
implicit-registration path (the key's own build method, already
context-bound); when the key has no extractable builder the source loops
forever re-adding it, modelled as an error. -/
def addOwnBuilder (c : Container) (k : DKey) (b : Nat) : Container :=
  { c with lazyCollection := insertK c.lazyCollection k (some b) }

def getItem (env : BuilderEnv) (ownB : DKey → Option Nat)
    (c : Container) (k : DKey) : Except String (PyVal × Container × Nat) :=
  match lookupK c.collection k with
  | some (PyVal.pyval v) => Except.ok (PyVal.pyval v, c, 0)
  | _ =>
    match findBuilder c k with
    | some (b, ctx) =>
      Except.ok ((env b ctx c).1, setItem (env b ctx c).2 k (env b ctx c).1, 1)
    | none =>
      if !c.allowImplicitRegister then
        Except.error "Builder not found in DataIOC."
      else
        match ownB k with
        | some b =>
          Except.ok ((env b none (addOwnBuilder c k b)).1,
            setItem (setItem (env b none (addOwnBuilder c k b)).2 k
                (env b none (addOwnBuilder c k b)).1) k
              (env b none (addOwnBuilder c k b)).1, 1)
        | none => Except.error "unbounded recursion in implicit registration"

/-- `IndexedDataIOC.__getitem__` forwards every lookup to the base
container after transforming the key: descriptors are rebound through
`index_weak(self.id)`, bare types become the ambient-id-qualified
`IndexedDataTypeDescriptor`, anything else passes through.  `index_weak`
never raises (proved below), so the error branch is vacuous. -/
def indexedGetKey (viewId : Int) (k : DKey) : DKey :=
  match k with
  | DKey.dsc d =>
    match indexWeak d viewId true with
    | Except.ok d1 => DKey.dsc d1
    | Except.error _ => DKey.dsc d
  | DKey.typ t => DKey.dsc (mkIdxDesc t viewId)
  | DKey.othr o => DKey.othr o

/-! ## `AutoBuildDict` (`deinterf/foundation/_data.py`)

The second container implementation: a `dict` keyed by integer instance
ids whose `__missing__` invokes a factory once and caches the result. -/

/-- `AutoBuildDict` lookup (`d[key]`): a hit returns the cached value with
no factory call; a miss invokes `__missing__`, which stores
`factory(key)` and returns it (factory call count 1); with no factory a
miss raises `KeyError`. -/
def abdGet (factory : Option (Int → Nat)) (entries : List (Int × Nat))
    (k : Int) : Except String (Nat × List (Int × Nat) × Nat) :=
  match entries.lookup k with
  | some v => Except.ok (v, entries, 0)
  | none =>
    match factory with
    | some f => Except.ok (f k, (k, f k) :: entries, 1)
    | none => Except.error "KeyError"

/-! ## Term / Composition algebra (`deinterf/foundation/_term.py`) -/

/-- A `ComposableTerm`: either an atomic term (tagged by its concrete
class) or a `Composition` holding its list of terms. -/
inductive CTerm where
  | leaf (name : Nat)
  | compos (terms : List CTerm)

/-- `Composition._validate`: a `Composition` argument contributes its
`terms` list, any other `ComposableTerm` contributes itself as a
singleton.  (The `TypeError` branch for non-terms is unreachable here since
`CTerm` only ranges over terms.) -/
def validateTerm (t : CTerm) : List CTerm :=
  match t with
  | CTerm.compos ts => ts
  | CTerm.leaf n => [CTerm.leaf n]

/-- `Composition.__init__(term1, term2)`: concatenate the validated term
lists. -/
def mkComposition (t1 t2 : CTerm) : CTerm :=
  CTerm.compos (validateTerm t1 ++ validateTerm t2)

/-- `ComposableTerm.__or__`: `self | other` builds `Composition(self, other)`. -/
def orTerm (t1 t2 : CTerm) : CTerm :=
  mkComposition t1 t2

/-! ## Directional-cosine transforms (`deinterf/utils/transform.py`)

Samples are real triples; float arrays are real lists.  `check_array`
rejects an empty input (`ensure_min_samples=1`); its finiteness check is
vacuous over ℝ, and `ensure_min_features=3` holds by the triple type. -/

noncomputable section

/-- Per-row Euclidean norm of the stacked (x, y, z) columns
(`np.linalg.norm(..., axis=1)`). -/
def rowNorm (v : ℝ × ℝ × ℝ) : ℝ :=
  Real.sqrt (v.1 * v.1 + v.2.1 * v.2.1 + v.2.2 * v.2.2)

/-- `magvec2modulus(magvec)`. -/
def magvec2modulus (magvec : List (ℝ × ℝ × ℝ)) : Except String (List ℝ) :=
  if magvec.length = 0 then Except.error "check_array: minimum of 1 sample required"
  else Except.ok (magvec.map rowNorm)

/-- `magvec2dircosine(magvec)`: each axis component divided by the modulus,
elementwise.  numpy division by a zero modulus emits a warning and produces
non-finite entries but does not raise; over ℝ the division is total. -/
def magvec2dircosine (magvec : List (ℝ × ℝ × ℝ)) :
    Except String (List (ℝ × ℝ × ℝ)) :=
  if magvec.length = 0 then Except.error "check_array: minimum of 1 sample required"
  else
    Except.ok (magvec.map (fun v =>
      let m := rowNorm v
      (v.1 / m, v.2.1 / m, v.2.2 / m)))

/-! ## Tolles-Lawson compensator (`deinterf/compensator.py`) -/

/-- Three-list elementwise zip, used for numpy ternary elementwise
expressions. -/
def zip3With (f : ℝ → ℝ → ℝ → ℝ) : List ℝ → List ℝ → List ℝ → List ℝ
  | a :: as1, b :: bs, c :: cs => f a b c :: zip3With f as1 bs cs
  | _, _, _ => []

/-- `np.gradient` of a 1-D sequence with unit spacing: one-sided
differences at the endpoints, central differences inside.  The source
raises for fewer than 2 samples; that region is modelled as the empty
list and excluded by hypothesis wherever used. -/
def npGradient (a : List ℝ) : List ℝ :=
  if a.length < 2 then []
  else
    (List.range a.length).map (fun i =>
      if i = 0 then a.getD 1 0 - a.getD 0 0
      else if i = a.length - 1 then
        a.getD (a.length - 1) 0 - a.getD (a.length - 2) 0
      else (a.getD (i + 1) 0 - a.getD (i - 1) 0) / 2)

/-- A fitted linear model (`RidgeCV` after `fit`): coefficients and
intercept; `predict` is affine. -/
structure LModel where
  coef : List ℝ
  intercept : ℝ

/-- `TollesLawsonCompensator` state: configuration flags, the stored raw
sequences from `fit`, and the `cached_property` slot for `model`. -/
structure TLComp where
  doBpf : Bool
  usingPermanent : Bool
  usingInduced : Bool
  usingEddy : Bool
  btScale : ℝ
  coefficientsNum : Nat
  samplingRate : ℝ
  srcVecX : List ℝ
  srcVecY : List ℝ
  srcVecZ : List ℝ
  srcScalar : List ℝ
  modelCache : Option LModel

/-- The state produced by `TollesLawsonCompensator.__init__` for a valid
coefficient count (raw sequences not yet fitted, modelled empty). -/
def mkTLC (n : Nat) : TLComp :=
  ⟨true, true, true, true, 50000, n, 10, [], [], [], [], none⟩

/-- `TollesLawsonCompensator.__init__(coefficients_num)`: rejects any
count other than 16 or 18. -/
def initTLC (n : Nat) : Except String TLComp :=
  if n = 16 ∨ n = 18 then Except.ok (mkTLC n)
  else Except.error "coefficients_num must be either 16 or 18."

/-- `TollesLawsonCompensator.fit`: stores the four raw sequences
(`np.array` of a float sequence raises nothing). -/
def fit (c : TLComp) (vx vy vz s : List ℝ) : TLComp :=
  { c with srcVecX := vx, srcVecY := vy, srcVecZ := vz, srcScalar := s }

/-- `do_bpf` setter: updates only the flag. -/
def setDoBpf (c : TLComp) (b : Bool) : TLComp :=
  { c with doBpf := b }

/-- `using_eddy` setter: updates only the flag. -/
def setUsingEddy (c : TLComp) (b : Bool) : TLComp :=
  { c with usingEddy := b }

/-- `vector_t = np.linalg.norm(np.c_[vx, vy, vz], axis=1)`. -/
def vecT (vx vy vz : List ℝ) : List ℝ :=
  zip3With (fun a b c => Real.sqrt (a * a + b * b + c * c)) vx vy vz

/-- `_compute_directional_cosine_components`: returns the permanent,
induced and eddy feature-column lists.  The 16-coefficient configuration
filters out the `cos_yy` column (`is not` identity removes exactly the
fresh `cos_yy` array, index 3) and the `cos_y_cos_y_dot` column (index 4). -/
def computeDCComponents (c : TLComp) (vx vy vz : List ℝ) :
    List (List ℝ) × List (List ℝ) × List (List ℝ) :=
  let t := vecT vx vy vz
  let cosX := List.zipWith (fun a b => a / b) vx t
  let cosY := List.zipWith (fun a b => a / b) vy t
  let cosZ := List.zipWith (fun a b => a / b) vz t
  let cosXdot := npGradient cosX
  let cosYdot := npGradient cosY
  let cosZdot := npGradient cosZ
  let pr := fun u v => zip3With (fun ti a b => ti * a * b / c.btScale) t u v
  let permanentItems := [cosX, cosY, cosZ]
  let inducedItems :=
    [pr cosX cosX, pr cosX cosY, pr cosX cosZ,
     pr cosY cosY, pr cosY cosZ, pr cosZ cosZ]
  let eddyItems :=
    [pr cosX cosXdot, pr cosX cosYdot, pr cosX cosZdot,
     pr cosY cosXdot, pr cosY cosYdot, pr cosY cosZdot,
     pr cosZ cosXdot, pr cosZ cosYdot, pr cosZ cosZdot]
  let inducedItems :=
    if c.coefficientsNum = 16 then inducedItems.eraseIdx 3 else inducedItems
  let eddyItems :=
    if c.coefficientsNum = 16 then eddyItems.eraseIdx 4 else eddyItems
  (permanentItems, inducedItems, eddyItems)

/-- `np.column_stack(features)`: the list of sample rows; row `i` collects
entry `i` of every feature column.  (All columns share the length of the
first.) -/
def columnStack (cols : List (List ℝ)) : List (List ℝ) :=
  (List.range (cols.headD []).length).map (fun i =>
    cols.map (fun col => col.getD i 0))

/-- `make_X`: concatenate the enabled feature groups in permanent,
induced, eddy order and stack them into the design matrix (as rows). -/
def makeX (c : TLComp) (vx vy vz : List ℝ) : List (List ℝ) :=
  let comps := computeDCComponents c vx vy vz
  let features :=
    (if c.usingPermanent then comps.1 else []) ++
    (if c.usingInduced then comps.2.1 else []) ++
    (if c.usingEddy then comps.2.2 else [])
  columnStack features

/-- The `X` property: the design matrix from the stored fit data,
band-pass filtered (`filtfilt` along axis 0, abstracted as `bpfM`) when
`do_bpf` is set. -/
def xMat (bpfM : List (List ℝ) → List (List ℝ)) (c : TLComp) : List (List ℝ) :=
  let X := makeX c c.srcVecX c.srcVecY c.srcVecZ
  if c.doBpf then bpfM X else X

/-- The `y` property: the stored scalar, filtered when `do_bpf` is set
(`filtfilt` on a 1-D array, abstracted as `bpf1`). -/
def yVec (bpf1 : List ℝ → List ℝ) (c : TLComp) : List ℝ :=
  if c.doBpf then bpf1 c.srcScalar else c.srcScalar

/-- The `model` `cached_property`: on first access fit a `RidgeCV`
(abstracted as `rfit`) on (`X`, `y`) and store it in the instance
dictionary; later accesses return the stored model.  Nothing ever deletes
the cache slot. -/
def getModel (rfit : List (List ℝ) → List ℝ → LModel)
    (bpfM : List (List ℝ) → List (List ℝ)) (bpf1 : List ℝ → List ℝ)
    (c : TLComp) : LModel × TLComp :=
  match c.modelCache with
  | some m => (m, c)
  | none =>
    (rfit (xMat bpfM c) (yVec bpf1 c),
      { c with modelCache := some (rfit (xMat bpfM c) (yVec bpf1 c)) })

/-- `model.predict(X)` for the affine ridge model, row by row. -/
def predictL (m : LModel) (x : List (List ℝ)) : List ℝ :=
  x.map (fun row => (List.zipWith (fun a b => a * b) m.coef row).sum + m.intercept)

/-- `scipy.signal.detrend(y, type="constant")`: subtract the mean. -/
def detrendConst (y : List ℝ) : List ℝ :=
  y.map (fun v => v - y.sum / (y.length : ℝ))

/-- `TollesLawsonCompensator.apply(flux_x, flux_y, flux_z, op)`: rebuild
the features, predict with the (lazily fitted) model, zero-mean the
prediction, and subtract it elementwise from `op`.  Returns the pair
`(comped, interf)` together with the post-call compensator state (the
`model` access may have populated the cache). -/
def applyC (rfit : List (List ℝ) → List ℝ → LModel)
    (bpfM : List (List ℝ) → List (List ℝ)) (bpf1 : List ℝ → List ℝ)
    (c : TLComp) (fx fy fz op : List ℝ) :
    (List ℝ × List ℝ) × TLComp :=
  let X := makeX c fx fy fz
  let mc := getModel rfit bpfM bpf1 c
  let y := predictL mc.1 X
  let interf := detrendConst y
  let comped := List.zipWith (fun a b => a - b) op interf
  ((comped, interf), mc.2)

/-- Success test for modelled fallible operations. -/
def isOkE (e : Except String α) : Bool :=
  match e with
  | Except.ok _ => true
  | Except.error _ => false

end

/-! ## Concrete instances used by witnesses and counterexamples -/

/-- A builder environment where every builder returns its own id and
leaves the container untouched. -/
def envW : BuilderEnv := fun b _ c => (PyVal.pyval b, c)

/-- An environment with no implicitly extractable builders. -/
def ownBW : DKey → Option Nat := fun _ => none

/-- A container with an empty cache and one lazy builder for bare type 5. -/
def cW : Container := ⟨[], [(DKey.typ 5, some 42)], true⟩

/-- The container state after the first resolution of type 5 (the value
also mirrored under the type's weak-id-0 descriptor by `__setitem__`). -/
def cW1 : Container :=
  ⟨[(DKey.typ 5, PyVal.pyval 42), (DKey.dsc (mkIdxDesc 5 (-1)), PyVal.pyval 42)],
    [(DKey.typ 5, some 42)], true⟩

/-- A concrete stand-in for the external ridge fit: the fitted model
records the head of the (possibly filtered) target as its intercept. -/
noncomputable def rfitW : List (List ℝ) → List ℝ → LModel :=
  fun _ y => ⟨[], y.headD 0⟩

/-- A concrete stand-in for the matrix band-pass filter. -/
def bpfMW : List (List ℝ) → List (List ℝ) := fun x => x

/-- A concrete stand-in for the 1-D band-pass filter that visibly changes
the data. -/
noncomputable def bpf1W : List ℝ → List ℝ := fun v => v.map (fun a => a + 1)

/-- A compensator freshly fitted on one-sample streams, band-pass
filtering enabled (the default). -/
noncomputable def c9c0 : TLComp := fit (mkTLC 16) [0] [0] [1] [0]

/-- The state of `c9c0` after the first `model` access under `rfitW`,
`bpfMW`, `bpf1W`: the fitted model is cached. -/
noncomputable def c9c1 : TLComp := { c9c0 with modelCache := some ⟨[], 1⟩ }

/-! ## Helper lemmas -/

/-- `DataDescriptor.index` never raises: the identity-conflict branch is
guarded by `not weak` inside the `else` branch, which is only reachable
when `weak` holds. -/
theorem index_isOk (d : Desc) (n : Int) (w co : Bool) :
    ∃ d1, index d n w co = Except.ok d1 := by
  unfold index
  by_cases h1 : n < 0 <;> by_cases h2 : isWeakId d = true <;>
    cases w <;> simp [h1, h2]

/-- Structure eta: updating `signedId` with its own value is the
identity. -/
theorem desc_update_self (d : Desc) :
    ({ d with signedId := d.signedId } : Desc) = d := by
  cases d
  rfl

/-- Canonical representative deciding dictionary key equality. -/
def kRep (k : DKey) : (Nat ⊕ (Nat × Int × Option Nat × List Int)) ⊕ Nat :=
  match k with
  | DKey.typ t => Sum.inl (Sum.inl t)
  | DKey.dsc d => Sum.inl (Sum.inr (d.tag, keysTuple d))
  | DKey.othr o => Sum.inr o

theorem keyEq_iff (a b : DKey) : keyEq a b = true ↔ kRep a = kRep b := by
  cases a <;> cases b <;>
    simp [keyEq, kRep, descEq, keysTuple]

theorem keyEq_refl (k : DKey) : keyEq k k = true :=
  (keyEq_iff k k).mpr rfl

theorem keyEq_typ_dsc (t : Nat) (d : Desc) :
    keyEq (DKey.typ t) (DKey.dsc d) = false := rfl

theorem keyEq_dsc_typ (d : Desc) (t : Nat) :
    keyEq (DKey.dsc d) (DKey.typ t) = false := rfl

theorem lookupK_insertK_self (l : List (DKey × α)) (k : DKey) (v : α) :
    lookupK (insertK l k v) k = some v := by
  induction l with
  | nil => simp [insertK, lookupK, keyEq_refl]
  | cons h t ih =>
    obtain ⟨k1, v1⟩ := h
    by_cases hk : keyEq k1 k = true
    · simp [insertK, hk, lookupK]
    · simp only [insertK, lookupK, hk, if_neg, Bool.not_eq_true] at *
      simp [hk, ih]

theorem lookupK_insertK_ne (l : List (DKey × α)) (m k : DKey) (v : α)
    (h : keyEq m k = false) :
    lookupK (insertK l m v) k = lookupK l k := by
  induction l with
  | nil =>
    simp only [insertK, lookupK]
    have hmk : ¬ keyEq m k = true := by simp [h]
    simp [hmk]
  | cons hd t ih =>
    obtain ⟨k1, v1⟩ := hd
    by_cases h1 : keyEq k1 m = true
    · have h2 : keyEq k1 k = false := by
        by_contra hc
        have h2t : keyEq k1 k = true := by
          revert hc
          cases keyEq k1 k <;> simp
        have e1 := (keyEq_iff k1 m).mp h1
        have e2 := (keyEq_iff k1 k).mp h2t
        have : keyEq m k = true := (keyEq_iff m k).mpr (e1 ▸ e2)
        simp [h] at this
      simp [insertK, h1, lookupK, h2]
    · simp [insertK, h1, lookupK, ih]

/-- After `__setitem__`, the exact key maps to the stored value: the
mirror writes target keys that never compare equal to the original. -/
theorem setItem_lookup_self (c : Container) (k : DKey) (v : PyVal) :
    lookupK (setItem c k v).collection k = some v := by
  cases k with
  | typ t =>
    simp only [setItem]
    rw [lookupK_insertK_ne _ _ _ _ (keyEq_dsc_typ _ _)]
    exact lookupK_insertK_self _ _ _
  | dsc d =>
    simp only [setItem]
    cases hdt : d.dtype with
    | none => exact lookupK_insertK_self _ _ _
    | some dt =>
      dsimp only
      by_cases h0 : publicId d.signedId = 0
      · rw [if_pos h0, lookupK_insertK_ne _ _ _ _ (keyEq_typ_dsc _ _)]
        exact lookupK_insertK_self _ _ _
      · rw [if_neg h0]
        exact lookupK_insertK_self _ _ _
  | othr o =>
    simp only [setItem]
    exact lookupK_insertK_self _ _ _

theorem length_zip3With (f : ℝ → ℝ → ℝ → ℝ) (a b c : List ℝ) :
    (zip3With f a b c).length = min a.length (min b.length c.length) := by
  induction a generalizing b c with
  | nil => cases b <;> cases c <;> simp [zip3With]
  | cons x xs ih =>
    cases b <;> cases c <;> simp [zip3With, ih] <;> omega

theorem length_npGradient (a : List ℝ) (h : 2 ≤ a.length) :
    (npGradient a).length = a.length := by
  have h2 : ¬ a.length < 2 := by omega
  simp [npGradient, h2]

theorem length_columnStack (cols : List (List ℝ)) :
    (columnStack cols).length = (cols.headD []).length := by
  simp [columnStack]

theorem mem_columnStack_length (cols : List (List ℝ)) (row : List ℝ)
    (h : row ∈ columnStack cols) : row.length = cols.length := by
  simp only [columnStack, List.mem_map, List.mem_range] at h
  obtain ⟨i, _, hrow⟩ := h
  rw [← hrow]
  simp

theorem sum_map_sub_const (y : List ℝ) (a : ℝ) :
    (y.map (fun v => v - a)).sum = y.sum - y.length * a := by
  induction y with
  | nil => simp
  | cons x xs ih =>
    simp [ih]
    ring

/-- Zero-meaning: the constant-detrended sequence of a non-empty list
sums to zero. -/
theorem sum_detrendConst (y : List ℝ) (hy : y ≠ []) :
    (detrendConst y).sum = 0 := by
  have hl0 : 0 < y.length := List.length_pos.mpr hy
  have hl : (y.length : ℝ) ≠ 0 := by
    exact_mod_cast Nat.pos_iff_ne_zero.mp hl0
  rw [detrendConst, sum_map_sub_const]
  field_simp

/-- A key cached with a non-`None` value is returned as-is with no
builder invocation. -/
theorem getItem_cached (env : BuilderEnv) (ownB : DKey → Option Nat)
    (c : Container) (k : DKey) (v : Nat)
    (h : lookupK c.collection k = some (PyVal.pyval v)) :
    getItem env ownB c k = Except.ok (PyVal.pyval v, c, 0) := by
  simp [getItem, h]

/-! ## Claim theorems -/

/-- C1 counterexample: the claim says rebinding a strong Descriptor to a
different id via `index(new_id)` without a forced override fails with an
identity-conflict error; on the code, the Descriptor with strong id 0
rebound by `index(2)` (default `weak=False`, `check_overriding=True`)
succeeds and returns the strong id-2 Descriptor, raising nothing. -/
theorem c1_counterexample :
    isWeakId ⟨1, 0, none, []⟩ = false ∧
      index ⟨1, 0, none, []⟩ 2 false true = Except.ok ⟨1, 2, none, []⟩ := by
  constructor <;> rfl

/-- C1 (amended): rebinding a weak Descriptor to any id succeeds;
`index(new_id)` with a non-negative id always succeeds and rebinds, even a
strong Descriptor to a different id; rebinding a strong Descriptor to its
own id returns it unchanged; `index_weak` on a strong Descriptor is a
silent no-op returning the Descriptor unchanged; the identity-conflict
error is unreachable for every argument combination. -/
theorem c1_index_amended (d : Desc) (n : Int) :
    (0 ≤ n → index d n false true = Except.ok { d with signedId := n }) ∧
    (isWeakId d = false →
      index d (publicId d.signedId) false true = Except.ok d) ∧
    (isWeakId d = false → indexWeak d n true = Except.ok d) ∧
    (∀ w co : Bool, ∃ d1, index d n w co = Except.ok d1) := by
  refine ⟨?_, ?_, ?_, fun w co => index_isOk d n w co⟩
  · intro hn
    have h1 : ¬ n < 0 := not_lt.mpr hn
    simp [index, h1]
  · intro hs
    have h0 : ¬ d.signedId < 0 := by
      simpa [isWeakId] using hs
    have h1 : publicId d.signedId = d.signedId := by
      simp [publicId, h0]
    simp [index, h1, h0, desc_update_self d]
  · intro hs
    have h0 : ¬ d.signedId < 0 := by
      simpa [isWeakId] using hs
    unfold indexWeak index
    by_cases h1 : n < 0 <;> simp [h1, isWeakId, h0]

/-- C1 amended witness: the strong id-1 Descriptor rebound by
`index(3)` succeeds and holds id 3. -/
theorem c1_index_amended_witness :
    (0 : Int) ≤ 3 ∧
      index ⟨2, 1, none, [5]⟩ 3 false true = Except.ok ⟨2, 3, none, [5]⟩ :=
  ⟨by decide, (c1_index_amended ⟨2, 1, none, [5]⟩ 3).1 (by decide)⟩

/-- C2: a lookup through an Indexed View bound to ambient id `k ≥ 0`
forwards a weak Descriptor rebound (via `index_weak`) to effective public
id `k` with every other identity field unchanged, forwards a strong
Descriptor unchanged, and forwards a bare type as the strong
id-`k`-qualified `IndexedDataTypeDescriptor` of that type. -/
theorem c2_indexed_view_forwarding (k : Int) (d : Desc) (t : Nat)
    (hk : 0 ≤ k) :
    (isWeakId d = true →
      indexedGetKey k (DKey.dsc d) = DKey.dsc { d with signedId := -k - 1 } ∧
        publicId (-k - 1) = k) ∧
    (isWeakId d = false → indexedGetKey k (DKey.dsc d) = DKey.dsc d) ∧
    (indexedGetKey k (DKey.typ t) = DKey.dsc (mkIdxDesc t k) ∧
      publicId (mkIdxDesc t k).signedId = k ∧
      isWeakId (mkIdxDesc t k) = false) := by
  have hk1 : ¬ k < 0 := not_lt.mpr hk
  have hneg : -k - 1 < 0 := by omega
  refine ⟨?_, ?_, ?_, ?_, ?_⟩
  · intro hw
    constructor
    · simp [indexedGetKey, indexWeak, index, hk1, hw]
    · simp [publicId, hneg]
  · intro hs
    have h0 : ¬ d.signedId < 0 := by
      simpa [isWeakId] using hs
    simp [indexedGetKey, indexWeak, index, hk1, isWeakId, h0]
  · rfl
  · simp [publicId, mkIdxDesc, hk1]
  · simp [isWeakId, mkIdxDesc, hk1]

/-- C2 witness: with ambient id 1, the weak-id Descriptor (signed code
-1) forwards rebound to public id 1, the strong id-0 Descriptor forwards
unchanged, and the bare type 7 forwards as its strong id-1 descriptor. -/
theorem c2_indexed_view_forwarding_witness :
    (0 : Int) ≤ 1 ∧
      ((isWeakId ⟨3, -1, none, []⟩ = true →
        indexedGetKey 1 (DKey.dsc ⟨3, -1, none, []⟩) =
          DKey.dsc ⟨3, -2, none, []⟩ ∧ publicId (-1 - 1) = 1) ∧
      (isWeakId ⟨3, -1, none, []⟩ = false →
        indexedGetKey 1 (DKey.dsc ⟨3, -1, none, []⟩) =
          DKey.dsc ⟨3, -1, none, []⟩) ∧
      (indexedGetKey 1 (DKey.typ 7) = DKey.dsc (mkIdxDesc 7 1) ∧
        publicId (mkIdxDesc 7 1).signedId = 1 ∧
        isWeakId (mkIdxDesc 7 1) = false)) :=
  ⟨by decide, c2_indexed_view_forwarding 1 ⟨3, -1, none, []⟩ 7 (by decide)⟩

/-- C4: for atomic terms `A`, `B`, `C`, both `(A | B) | C` and
`A | (B | C)` (and hence the left-associated `A | B | C`) construct a
Composition whose term list is exactly `[A, B, C]`, a flat list of the
three leaves with no nested Composition. -/
theorem c4_composition_flattening (a b c : Nat) :
    orTerm (orTerm (CTerm.leaf a) (CTerm.leaf b)) (CTerm.leaf c) =
      CTerm.compos [CTerm.leaf a, CTerm.leaf b, CTerm.leaf c] ∧
    orTerm (CTerm.leaf a) (orTerm (CTerm.leaf b) (CTerm.leaf c)) =
      CTerm.compos [CTerm.leaf a, CTerm.leaf b, CTerm.leaf c] := by
  constructor <;> rfl

/-- C3: in both container implementations, a resolved value is memoized:
a first `__getitem__` that resolves key `k` invokes a builder at most once
(exactly once when nothing was cached), and a second `__getitem__` on the
same key returns the identical cached value, leaves the container state
unchanged, and invokes no builder.  (Stated for values other than the
Python `None` sentinel, which `DataIOC.__getitem__` cannot distinguish
from a cache miss; all data quantities are non-`None`.) -/
theorem c3_memoization :
    (∀ (env : BuilderEnv) (ownB : DKey → Option Nat) (c : Container)
        (k : DKey) (v : PyVal) (c1 : Container) (n : Nat),
      getItem env ownB c k = Except.ok (v, c1, n) → v ≠ PyVal.pynone →
        n ≤ 1 ∧ getItem env ownB c1 k = Except.ok (v, c1, 0) ∧
          (lookupK c.collection k = none → n = 1)) ∧
    (∀ (f : Int → Nat) (entries : List (Int × Nat)) (ki : Int) (w : Nat)
        (e1 : List (Int × Nat)) (m : Nat),
      abdGet (some f) entries ki = Except.ok (w, e1, m) →
        m ≤ 1 ∧ abdGet (some f) e1 ki = Except.ok (w, e1, 0) ∧
          (entries.lookup ki = none → m = 1)) := by
  constructor
  · intro env ownB c k v c1 n hget hv
    unfold getItem at hget
    split at hget
    next v0 heq =>
      simp only [Except.ok.injEq, Prod.mk.injEq] at hget
      obtain ⟨hv1, hc1, hn⟩ := hget
      subst hv1; subst hc1; subst hn
      refine ⟨by omega, getItem_cached env ownB c k v0 heq, ?_⟩
      intro hnone
      rw [heq] at hnone
      cases hnone
    next =>
      split at hget
      next b ctx hfb =>
        simp only [Except.ok.injEq, Prod.mk.injEq] at hget
        obtain ⟨hv1, hc1, hn⟩ := hget
        subst hn
        have hl : lookupK c1.collection k = some v := by
          rw [← hc1, ← hv1]
          exact setItem_lookup_self _ _ _
        cases v with
        | pynone => exact absurd rfl hv
        | pyval w =>
          exact ⟨by omega, getItem_cached env ownB c1 k w hl, fun _ => rfl⟩
      next hfb =>
        split at hget
        next himp => cases hget
        next himp =>
          split at hget
          next b hown =>
            simp only [Except.ok.injEq, Prod.mk.injEq] at hget
            obtain ⟨hv1, hc1, hn⟩ := hget
            subst hn
            have hl : lookupK c1.collection k = some v := by
              rw [← hc1, ← hv1]
              exact setItem_lookup_self _ _ _
            cases v with
            | pynone => exact absurd rfl hv
            | pyval w =>
              exact ⟨by omega, getItem_cached env ownB c1 k w hl, fun _ => rfl⟩
          next hown => cases hget
  · intro f entries ki w e1 m habd
    unfold abdGet at habd
    split at habd
    next v0 heq =>
      simp only [Except.ok.injEq, Prod.mk.injEq] at habd
      obtain ⟨hw, he, hm⟩ := habd
      subst hw; subst he; subst hm
      refine ⟨by omega, ?_, ?_⟩
      · simp [abdGet, heq]
      · intro hnone
        rw [heq] at hnone
        cases hnone
    next heq =>
      simp only [Except.ok.injEq, Prod.mk.injEq] at habd
      obtain ⟨hw, he, hm⟩ := habd
      subst hw; subst he; subst hm
      refine ⟨by omega, ?_, fun _ => rfl⟩
      simp [abdGet, List.lookup]

/-- C3 witness: resolving bare type 5 invokes its builder once and caches
value 42; the immediate second lookup returns value 42 from the cache with
zero builder invocations and an unchanged container. -/
theorem c3_memoization_witness :
    getItem envW ownBW cW (DKey.typ 5) =
        Except.ok (PyVal.pyval 42, cW1, 1) ∧
      PyVal.pyval 42 ≠ PyVal.pynone ∧
      (1 ≤ 1 ∧ getItem envW ownBW cW1 (DKey.typ 5) =
          Except.ok (PyVal.pyval 42, cW1, 0) ∧
        (lookupK cW.collection (DKey.typ 5) = none → 1 = 1)) :=
  ⟨rfl, by decide,
    c3_memoization.1 envW ownBW cW (DKey.typ 5) (PyVal.pyval 42) cW1 1
      rfl (by decide)⟩

/-- C10: for any concrete descriptor class with equal extra parameters,
the weak encoding of public id `k` (signed code `-k-1`) and the strong id
`k` compare equal under `DataDescriptor.__eq__`, produce the same `keys`
attribute tuple, and therefore hash identically (the hash is a function of
that tuple). -/
theorem c10_desc_eq_hash (tag k : Nat) (dt : Option Nat) (extra : List Int) :
    descEq ⟨tag, -(k : Int) - 1, dt, extra⟩ ⟨tag, (k : Int), dt, extra⟩ = true ∧
    keysTuple ⟨tag, -(k : Int) - 1, dt, extra⟩ =
      keysTuple ⟨tag, (k : Int), dt, extra⟩ ∧
    descHash ⟨tag, -(k : Int) - 1, dt, extra⟩ =
      descHash ⟨tag, (k : Int), dt, extra⟩ := by
  have hneg : -(k : Int) - 1 < 0 := by omega
  have hnn : ¬ (k : Int) < 0 := by omega
  have hpub : publicId (-(k : Int) - 1) = publicId (k : Int) := by
    simp [publicId, hneg, hnn]
  have htup : keysTuple ⟨tag, -(k : Int) - 1, dt, extra⟩ =
      keysTuple ⟨tag, (k : Int), dt, extra⟩ := by
    simp [keysTuple, hpub]
  exact ⟨by simp [descEq, htup], htup, by simp [descHash, htup]⟩

/-- C7 counterexample: the claim says `fit` fails when the four input
sequences do not share a length; on the code, `fit` performs no length
check — fitting three 2-sample vector streams against a 3-sample scalar
succeeds and stores the mismatched sequences verbatim (`np.array` of a
numeric list and an attribute assignment raise nothing). -/
theorem c7_counterexample :
    (fit (mkTLC 16) [0, 1] [0, 1] [0, 1] [0, 1, 2]).srcVecX = [0, 1] ∧
    (fit (mkTLC 16) [0, 1] [0, 1] [0, 1] [0, 1, 2]).srcScalar = [0, 1, 2] ∧
    (fit (mkTLC 16) [0, 1] [0, 1] [0, 1] [0, 1, 2]).srcVecX.length = 2 ∧
    (fit (mkTLC 16) [0, 1] [0, 1] [0, 1] [0, 1, 2]).srcScalar.length = 3 := by
  refine ⟨rfl, rfl, rfl, rfl⟩

/-- C7 (amended): `fit` stores the four raw sequences unconditionally,
performing no equal-length validation (a mismatch only surfaces later
when the feature matrix is built from the stored data); configuration and
the cached model are untouched. -/
theorem c7_fit_stores (c : TLComp) (vx vy vz s : List ℝ) :
    (fit c vx vy vz s).srcVecX = vx ∧
    (fit c vx vy vz s).srcVecY = vy ∧
    (fit c vx vy vz s).srcVecZ = vz ∧
    (fit c vx vy vz s).srcScalar = s ∧
    (fit c vx vy vz s).doBpf = c.doBpf ∧
    (fit c vx vy vz s).coefficientsNum = c.coefficientsNum ∧
    (fit c vx vy vz s).modelCache = c.modelCache :=
  ⟨rfl, rfl, rfl, rfl, rfl, rfl, rfl⟩

/-- C8 counterexample: the claim says deriving directional cosines fails
whenever the modulus has a zero sample; on the code, the all-zero sample
has modulus 0 yet `magvec2dircosine` returns normally (numpy division by
zero warns and produces non-finite values, it does not raise). -/
theorem c8_counterexample :
    magvec2modulus [((0 : ℝ), (0 : ℝ), (0 : ℝ))] = Except.ok [0] ∧
    magvec2dircosine [((0 : ℝ), (0 : ℝ), (0 : ℝ))] = Except.ok [(0, 0, 0)] := by
  constructor
  · simp [magvec2modulus, rowNorm]
  · simp [magvec2dircosine, rowNorm]

/-- C8 (amended): for every non-empty vector-field input,
`magvec2dircosine` succeeds and returns the elementwise quotients of the
axis components by the per-sample modulus; a zero modulus does not make it
fail (the division artifact propagates into the result instead). -/
theorem c8_dircosine_total (mv : List (ℝ × ℝ × ℝ)) (h : 0 < mv.length) :
    isOkE (magvec2dircosine mv) = true ∧
    magvec2dircosine mv = Except.ok (mv.map (fun v =>
      (v.1 / rowNorm v, v.2.1 / rowNorm v, v.2.2 / rowNorm v))) := by
  have h0 : ¬ mv.length = 0 := by omega
  constructor <;> simp [magvec2dircosine, isOkE, h0]

/-- C8 amended witness: the single-sample field (1, 0, 0) resolves to its
directional cosines without failure. -/
theorem c8_dircosine_total_witness :
    0 < [((1 : ℝ), (0 : ℝ), (0 : ℝ))].length ∧
      (isOkE (magvec2dircosine [((1 : ℝ), (0 : ℝ), (0 : ℝ))]) = true ∧
        magvec2dircosine [((1 : ℝ), (0 : ℝ), (0 : ℝ))] =
          Except.ok ([((1 : ℝ), (0 : ℝ), (0 : ℝ))].map (fun v =>
            (v.1 / rowNorm v, v.2.1 / rowNorm v, v.2.2 / rowNorm v)))) :=
  ⟨by decide, c8_dircosine_total [((1 : ℝ), (0 : ℝ), (0 : ℝ))] (by decide)⟩

/-- C9 counterexample: the claim says that after changing a configuration
parameter (the band-pass toggle) and re-accessing, the cached model is
replaced by a model fitted under the new configuration; on the code,
`model` is a `cached_property` that no setter invalidates: after the
first access caches the model fitted with filtering on, turning `do_bpf`
off and re-accessing still returns the stale cached model, which differs
from the model a fresh fit under the new configuration would produce. -/
theorem c9_counterexample :
    (getModel rfitW bpfMW bpf1W c9c0).1 = ⟨[], 1⟩ ∧
    (getModel rfitW bpfMW bpf1W
        (setDoBpf (getModel rfitW bpfMW bpf1W c9c0).2 false)).1 = ⟨[], 1⟩ ∧
    rfitW
        (xMat bpfMW (setDoBpf (getModel rfitW bpfMW bpf1W c9c0).2 false))
        (yVec bpf1W (setDoBpf (getModel rfitW bpfMW bpf1W c9c0).2 false)) =
      ⟨[], 0⟩ ∧
    (⟨[], 1⟩ : LModel) ≠ (⟨[], 0⟩ : LModel) := by
  have hg : getModel rfitW bpfMW bpf1W c9c0 = (⟨[], 1⟩, c9c1) := by
    simp [getModel, c9c0, c9c1, fit, mkTLC, rfitW, bpf1W, yVec]
  refine ⟨by rw [hg], ?_, ?_, ?_⟩
  · rw [hg]
    simp [getModel, setDoBpf, c9c1]
  · rw [hg]
    simp [rfitW, yVec, setDoBpf, c9c1, c9c0, fit, mkTLC]
  · intro h
    have := congrArg LModel.intercept h
    norm_num at this

/-- C9 (amended): the fitted model is built lazily on the first `model`
access from the configuration current at that moment and cached; repeated
access returns the identical cached model and leaves the state unchanged;
but changing a configuration parameter such as `do_bpf` does NOT
invalidate the cache — re-accessing after the change still returns the
stale cached model rather than one fitted under the new configuration. -/
theorem c9_model_cache_stale (rfit : List (List ℝ) → List ℝ → LModel)
    (bpfM : List (List ℝ) → List (List ℝ)) (bpf1 : List ℝ → List ℝ)
    (c : TLComp) (m : LModel) (c1 : TLComp)
    (h : getModel rfit bpfM bpf1 c = (m, c1)) :
    c1.modelCache = some m ∧
    getModel rfit bpfM bpf1 c1 = (m, c1) ∧
    (∀ b : Bool, getModel rfit bpfM bpf1 (setDoBpf c1 b) =
      (m, setDoBpf c1 b)) ∧
    (c.modelCache = none → m = rfit (xMat bpfM c) (yVec bpf1 c)) := by
  unfold getModel at h
  cases hc : c.modelCache with
  | some m0 =>
    rw [hc] at h
    simp only [Prod.mk.injEq] at h
    obtain ⟨hm, hc1⟩ := h
    subst hm
    subst hc1
    refine ⟨hc, by simp [getModel, hc], ?_, ?_⟩
    · intro b
      simp [getModel, setDoBpf, hc]
    · intro hnone
      simp at hnone
  | none =>
    rw [hc] at h
    simp only [Prod.mk.injEq] at h
    obtain ⟨hm, hc1⟩ := h
    refine ⟨?_, ?_, ?_, fun _ => hm.symm⟩
    · rw [← hc1]
      simp [hm]
    · rw [← hc1]
      simp [getModel, hm]
    · intro b
      rw [← hc1]
      simp [getModel, setDoBpf, hm]

/-- C9 amended witness: under the concrete fit/filter stand-ins, the
first access on the freshly fitted compensator caches model `⟨[], 1⟩`;
the cached-state conclusions hold at that instance. -/
theorem c9_model_cache_stale_witness :
    getModel rfitW bpfMW bpf1W c9c0 = (⟨[], 1⟩, c9c1) ∧
      (c9c1.modelCache = some ⟨[], 1⟩ ∧
      getModel rfitW bpfMW bpf1W c9c1 = (⟨[], 1⟩, c9c1) ∧
      (∀ b : Bool, getModel rfitW bpfMW bpf1W (setDoBpf c9c1 b) =
        (⟨[], 1⟩, setDoBpf c9c1 b)) ∧
      (c9c0.modelCache = none →
        (⟨[], 1⟩ : LModel) = rfitW (xMat bpfMW c9c0) (yVec bpf1W c9c0))) := by
  have hp : getModel rfitW bpfMW bpf1W c9c0 = (⟨[], 1⟩, c9c1) := by
    simp [getModel, c9c0, c9c1, fit, mkTLC, rfitW, bpf1W, yVec]
  exact ⟨hp, c9_model_cache_stale rfitW bpfMW bpf1W c9c0 ⟨[], 1⟩ c9c1 hp⟩

/-- C5: with equal-length vector-field inputs of length `N` (at least 2
samples, as `np.gradient` requires), the 16-coefficient configuration
yields a feature matrix of `N` rows and 16 columns and the 18-coefficient
configuration one of `N` rows and 18 columns; the groups contribute
3 permanent + 5 induced + 8 eddy columns (16) and 3 + 6 + 9 (18), the
reduced induced block being the full block minus exactly the `yy` column
(index 3) and the reduced eddy block the full block minus exactly the
`yy`-derivative column (index 4). -/
theorem c5_feature_counts (vx vy vz : List ℝ) (N : Nat)
    (h1 : vx.length = N) (h2 : vy.length = N) (h3 : vz.length = N)
    (hN : 2 ≤ N) :
    ((makeX (mkTLC 16) vx vy vz).length = N ∧
      (∀ row ∈ makeX (mkTLC 16) vx vy vz, row.length = 16)) ∧
    ((makeX (mkTLC 18) vx vy vz).length = N ∧
      (∀ row ∈ makeX (mkTLC 18) vx vy vz, row.length = 18)) ∧
    ((computeDCComponents (mkTLC 16) vx vy vz).1.length = 3 ∧
      (computeDCComponents (mkTLC 16) vx vy vz).2.1.length = 5 ∧
      (computeDCComponents (mkTLC 16) vx vy vz).2.2.length = 8 ∧
      (computeDCComponents (mkTLC 18) vx vy vz).2.1.length = 6 ∧
      (computeDCComponents (mkTLC 18) vx vy vz).2.2.length = 9) ∧
    ((computeDCComponents (mkTLC 16) vx vy vz).2.1 =
        ((computeDCComponents (mkTLC 18) vx vy vz).2.1).eraseIdx 3 ∧
      (computeDCComponents (mkTLC 16) vx vy vz).2.2 =
        ((computeDCComponents (mkTLC 18) vx vy vz).2.2).eraseIdx 4) := by
  have ht : (vecT vx vy vz).length = N := by
    simp [vecT, length_zip3With, h1, h2, h3]
  have hcx : (List.zipWith (fun a b => a / b) vx (vecT vx vy vz)).length = N := by
    simp [List.length_zipWith, ht, h1]
  refine ⟨⟨?_, ?_⟩, ⟨?_, ?_⟩, ?_, ?_⟩
  · simp [makeX, computeDCComponents, mkTLC, length_columnStack, hcx]
  · intro row hrow
    have h := mem_columnStack_length _ _ hrow
    rw [h]
    simp [computeDCComponents, mkTLC]
  · simp [makeX, computeDCComponents, mkTLC, length_columnStack, hcx]
  · intro row hrow
    have h := mem_columnStack_length _ _ hrow
    rw [h]
    simp [computeDCComponents, mkTLC]
  · simp [computeDCComponents, mkTLC]
  · simp [computeDCComponents, mkTLC]

/-- C5 witness: three 2-sample streams give a 2-row matrix with 16
columns (16-coefficient configuration) and 18 columns (18-coefficient
configuration). -/
theorem c5_feature_counts_witness :
    ([(0 : ℝ), 0].length = 2 ∧ ([(0 : ℝ), 0].length = 2 ∧
      ([(1 : ℝ), 1].length = 2 ∧ 2 ≤ 2))) ∧
    (((makeX (mkTLC 16) [0, 0] [0, 0] [1, 1]).length = 2 ∧
        (∀ row ∈ makeX (mkTLC 16) [0, 0] [0, 0] [1, 1], row.length = 16)) ∧
      ((makeX (mkTLC 18) [0, 0] [0, 0] [1, 1]).length = 2 ∧
        (∀ row ∈ makeX (mkTLC 18) [0, 0] [0, 0] [1, 1], row.length = 18)) ∧
      ((computeDCComponents (mkTLC 16) [0, 0] [0, 0] [1, 1]).1.length = 3 ∧
        (computeDCComponents (mkTLC 16) [0, 0] [0, 0] [1, 1]).2.1.length = 5 ∧
        (computeDCComponents (mkTLC 16) [0, 0] [0, 0] [1, 1]).2.2.length = 8 ∧
        (computeDCComponents (mkTLC 18) [0, 0] [0, 0] [1, 1]).2.1.length = 6 ∧
        (computeDCComponents (mkTLC 18) [0, 0] [0, 0] [1, 1]).2.2.length = 9) ∧
      ((computeDCComponents (mkTLC 16) [0, 0] [0, 0] [1, 1]).2.1 =
          ((computeDCComponents (mkTLC 18) [0, 0] [0, 0] [1, 1]).2.1).eraseIdx 3 ∧
        (computeDCComponents (mkTLC 16) [0, 0] [0, 0] [1, 1]).2.2 =
          ((computeDCComponents (mkTLC 18) [0, 0] [0, 0] [1, 1]).2.2).eraseIdx 4)) :=
  ⟨⟨rfl, rfl, rfl, by omega⟩,
    c5_feature_counts [0, 0] [0, 0] [1, 1] 2 rfl rfl rfl (by omega)⟩

/-- C6: for every compensator with the permanent group enabled (all
configurations produced by `__init__` have it) and equal-length non-trivial
flux inputs, `apply` returns the pair `(comped, interf)` where `interf` is
the fitted model's prediction on the rebuilt feature matrix with its
constant trend removed — hence summing to zero — and `comped` is the given
scalar minus that interference, elementwise; the fitted model used is the
lazily-built cached one. -/
theorem c6_apply (rfit : List (List ℝ) → List ℝ → LModel)
    (bpfM : List (List ℝ) → List (List ℝ)) (bpf1 : List ℝ → List ℝ)
    (c : TLComp) (fx fy fz op : List ℝ) (N : Nat)
    (h1 : fx.length = N) (h2 : fy.length = N) (h3 : fz.length = N)
    (hN : 2 ≤ N) (hperm : c.usingPermanent = true) :
    (applyC rfit bpfM bpf1 c fx fy fz op).1.2 =
      detrendConst (predictL (getModel rfit bpfM bpf1 c).1
        (makeX c fx fy fz)) ∧
    (applyC rfit bpfM bpf1 c fx fy fz op).1.1 =
      List.zipWith (fun a b => a - b) op
        (applyC rfit bpfM bpf1 c fx fy fz op).1.2 ∧
    ((applyC rfit bpfM bpf1 c fx fy fz op).1.2).sum = 0 ∧
    (applyC rfit bpfM bpf1 c fx fy fz op).2 =
      (getModel rfit bpfM bpf1 c).2 := by
  have ht : (vecT fx fy fz).length = N := by
    simp [vecT, length_zip3With, h1, h2, h3]
  have hcx : (List.zipWith (fun a b => a / b) fx (vecT fx fy fz)).length = N := by
    simp [List.length_zipWith, ht, h1]
  have hXlen : (makeX c fx fy fz).length = N := by
    simp [makeX, computeDCComponents, hperm, length_columnStack, hcx]
  have hXne : makeX c fx fy fz ≠ [] := by
    apply List.ne_nil_of_length_pos
    omega
  have hyne : predictL (getModel rfit bpfM bpf1 c).1 (makeX c fx fy fz) ≠ [] := by
    rcases hX : makeX c fx fy fz with _ | ⟨r, rs⟩
    · exact absurd hX hXne
    · simp [predictL, hX]
  exact ⟨rfl, rfl, sum_detrendConst _ hyne, rfl⟩

/-- C6 witness: at a concrete fitted compensator and 2-sample inputs, the
hypotheses hold and `apply` satisfies the interference/compensation
equations. -/
theorem c6_apply_witness :
    (([(0 : ℝ), 0].length = 2 ∧ ([(0 : ℝ), 0].length = 2 ∧
        ([(1 : ℝ), 1].length = 2 ∧ 2 ≤ 2 ∧
          (mkTLC 16).usingPermanent = true)))) ∧
    ((applyC rfitW bpfMW bpf1W (mkTLC 16) [0, 0] [0, 0] [1, 1] [0, 0]).1.2 =
        detrendConst (predictL
          (getModel rfitW bpfMW bpf1W (mkTLC 16)).1
          (makeX (mkTLC 16) [0, 0] [0, 0] [1, 1])) ∧
      (applyC rfitW bpfMW bpf1W (mkTLC 16) [0, 0] [0, 0] [1, 1] [0, 0]).1.1 =
        List.zipWith (fun a b => a - b) [0, 0]
          (applyC rfitW bpfMW bpf1W (mkTLC 16) [0, 0] [0, 0] [1, 1] [0, 0]).1.2 ∧
      ((applyC rfitW bpfMW bpf1W (mkTLC 16) [0, 0] [0, 0] [1, 1] [0, 0]).1.2).sum = 0 ∧
      (applyC rfitW bpfMW bpf1W (mkTLC 16) [0, 0] [0, 0] [1, 1] [0, 0]).2 =
        (getModel rfitW bpfMW bpf1W (mkTLC 16)).2) :=
  ⟨⟨rfl, rfl, rfl, by omega, rfl⟩,
    c6_apply rfitW bpfMW bpf1W (mkTLC 16) [0, 0] [0, 0] [1, 1] [0, 0] 2
      rfl rfl rfl (by omega) rfl⟩

end Deinterf
